import Mathlib

/-!
Verification development for the `lkgb` log-parsing system.

This file is a shallow embedding of the core extraction pipeline:

* `src/lkgb/parser/models.py` — `EventGraph.graph` (graph assembly with node
  deduplication), `build_dynamic_model` (dynamic validation-schema builder) and
  the `validate_relationships` model validator;
* `src/lkgb/parser/parser.py` — `Parser.parse`, the bounded self-reflection
  loop that invokes the LLM backend, accumulates correction messages and
  returns a `ParserReport`;
* `src/lkgb/reports.py` — `ParserReport`.

Modelling conventions:

* Python dicts are insertion-ordered association lists (`dictInsert` replaces
  the value in place on an existing key, preserving its position, exactly as a
  Python dict assignment does).
* Python sets only ever matter here through membership and emptiness, and are
  represented by deduplicated lists.
* A raised Python exception that escapes a function is `Except.error`;
  a normal return is `Except.ok`.
* The LLM backend is an oracle `resp : Nat → RawSchema` giving, for each
  invocation index, the dict produced by the structured-output chain.
  `raw : Option (Option AIMessage)` distinguishes the key being absent
  (`none`, a `KeyError` on subscript access) from the key holding Python
  `None` (`some none`).
* `uuid.uuid4()` calls are an oracle `fresh : Nat → String`, consumed in
  order, and `datetime.now` values are supplied as explicit `Nat` timestamps.
-/

/-- A property of a node as emitted by the LLM (`Property` in `models.py`):
a `type` key and an extracted value.  The Python value may be
`str | int | float`; its identity is irrelevant to every claim, so it is kept
as an opaque `String`. -/
structure Property where
  type : String
  value : String
deriving Repr, DecidableEq

/-- A node of the LLM output (`Node` in `build_dynamic_model`): an id, a type
name, and an optional list of properties. -/
structure ENode where
  id : String
  type : String
  properties : Option (List Property)
deriving Repr, DecidableEq

/-- A relationship of the LLM output (`Relationship` in `build_dynamic_model`),
referencing nodes by id. -/
structure ERel where
  source_id : String
  target_id : String
  type : String
deriving Repr, DecidableEq

/-- The flat node/relationship lists returned by the LLM
(`EventGraph` in `models.py`). -/
structure EventGraph where
  nodes : List ENode
  relationships : List ERel
deriving Repr, DecidableEq

/-- A resolved node of a `GraphDocument` (`langchain` `Node`): its properties
are a Python dict, modelled as an insertion-ordered association list. -/
structure GNode where
  id : String
  type : String
  properties : List (String × String)
deriving Repr, DecidableEq

/-- A resolved relationship of a `GraphDocument` (`langchain` `Relationship`):
it holds the node objects themselves, not ids. -/
structure GRel where
  source : GNode
  target : GNode
  type : String
deriving Repr, DecidableEq

/-- A `langchain` `GraphDocument`: the assembled output graph, and also the
shape of the ontology snapshot consumed by `build_dynamic_model`. -/
structure GraphDocument where
  nodes : List GNode
  relationships : List GRel
deriving Repr, DecidableEq

/-- Python dict assignment `d[k] = v`: replace the value in place if the key
exists (keeping its position), otherwise append the new binding. -/
def dictInsert (k : String) (v : α) : List (String × α) → List (String × α)
  | [] => [(k, v)]
  | (k2, v2) :: rest => if k2 = k then (k, v) :: rest else (k2, v2) :: dictInsert k v rest

/-- Python dict lookup `d[k]` / `d.get(k)`: the value bound to the first
(unique) occurrence of the key, if any. -/
def dictGet (d : List (String × α)) (k : String) : Option α :=
  match d with
  | [] => none
  | (k2, v) :: rest => if k2 = k then some v else dictGet rest k

/-- The `Node(...)` built for one LLM node inside `EventGraph.graph`:
`{prop.type: prop.value for prop in node.properties} if node.properties else {}`.
Note that in Python both `None` and an empty list are falsy, and duplicate
property types collapse with last write winning, as in any dict comprehension. -/
def toGNode (n : ENode) : GNode :=
  { id := n.id
    type := n.type
    properties :=
      match n.properties with
      | none => []
      | some ps => ps.foldl (fun d p => dictInsert p.type p.value d) [] }

/-- The `nodes_dict` comprehension of `EventGraph.graph`: nodes deduplicated
by their LLM-provided id, later entries overwriting earlier ones (last write
wins), insertion order preserved. -/
def nodesDict (ns : List ENode) : List (String × GNode) :=
  ns.foldl (fun d n => dictInsert n.id (toGNode n) d) []

/-- The relationships comprehension of `EventGraph.graph`:
`Relationship(source=nodes_dict[rel.source_id], target=nodes_dict[rel.target_id], ...)`.
A missing id is a `KeyError`, modelled as `none`. -/
def resolveRels (d : List (String × GNode)) : List ERel → Option (List GRel)
  | [] => some []
  | r :: rs =>
    match dictGet d r.source_id, dictGet d r.target_id with
    | some s, some t => (resolveRels d rs).map (fun l => { source := s, target := t, type := r.type } :: l)
    | _, _ => none

/-- `EventGraph.graph` from `models.py`: deduplicate the nodes by id, resolve
every relationship against the deduplicated lookup, and produce the
`GraphDocument`.  `none` models the `KeyError` raised on a dangling
relationship reference. -/
def EventGraph.graph (g : EventGraph) : Option GraphDocument :=
  match resolveRels (nodesDict g.nodes) g.relationships with
  | some rels => some { nodes := (nodesDict g.nodes).map Prod.snd, relationships := rels }
  | none => none

/-- The closed sets computed by `build_dynamic_model` and baked into the
dynamically generated pydantic model: node-type enum, per-type allowed
property keys, the global property-key enum, relationship-type enum, and the
documented triples. -/
structure DynamicModel where
  valid_node_types : List String
  valid_properties_per_node : List (String × List String)
  valid_properties : List String
  valid_relationship_types : List String
  valid_triples : List (String × String × String)
deriving Repr, DecidableEq

/-- `build_dynamic_model` from `models.py`.  `valid_properties_per_node` is a
dict comprehension keyed by node type (`[*node.properties.keys(), "uri"]` per
type); `valid_properties` is the set union of its values.  Note the source
performs no emptiness check on the ontology: an empty snapshot yields a model
whose enums are all empty, without raising (Python allows member-less enums
built through the functional API, and pydantic accepts them as field types). -/
def build_dynamic_model (ontology : GraphDocument) : DynamicModel :=
  let valid_node_types := ontology.nodes.map GNode.type
  let valid_properties_per_node :=
    ontology.nodes.foldl (fun d n => dictInsert n.type (n.properties.map Prod.fst ++ ["uri"]) d) []
  let valid_properties := ((valid_properties_per_node.map Prod.snd).flatten).dedup
  let valid_relationship_types := ontology.relationships.map GRel.type
  let valid_triples := ontology.relationships.map (fun r => (r.source.type, r.type, r.target.type))
  { valid_node_types := valid_node_types
    valid_properties_per_node := valid_properties_per_node
    valid_properties := valid_properties
    valid_relationship_types := valid_relationship_types
    valid_triples := valid_triples }

/-- The `missing_nodes` set computed by
`DynamicEventGraph.validate_relationships`.  In the Python source the set
expression is `{sources} | {targets} - node_ids`, and `-` binds tighter than
`|`, so it evaluates as `sources ∪ (targets \ node_ids)`: every relationship
source id is included unconditionally, whether or not it occurs in the node
list.  The embedding reproduces this grouping faithfully. -/
def missingNodeIds (g : EventGraph) : List String :=
  let node_ids := g.nodes.map ENode.id
  ((g.relationships.map ERel.source_id) ++
      (g.relationships.map ERel.target_id).filter (fun t => !(node_ids.contains t))).dedup

/-- `DynamicEventGraph.validate_relationships` from `models.py`: raise a
`ValueError` when `missing_nodes` is non-empty, otherwise return the model. -/
def validate_relationships (g : EventGraph) : Except String EventGraph :=
  if missingNodeIds g = [] then .ok g
  else
    .error ("Relationships mention node ids that are not present in the nodes list: " ++
      String.intercalate ", " (missingNodeIds g))

/-- The pydantic field validation of one `Node` of the dynamic model: the
node type must be a member of the `NodeType` enum, and every property type a
member of the single global `PropertyType` enum (the union over all node
types).  The per-type property sets appear only in the generated doc text,
never in a runtime check. -/
def nodeFieldsOk (m : DynamicModel) (n : ENode) : Bool :=
  m.valid_node_types.contains n.type &&
    (match n.properties with
     | none => true
     | some ps => ps.all (fun p => m.valid_properties.contains p.type))

/-- Full pydantic validation of a candidate `DynamicEventGraph`: enum-typed
field validation for every node and relationship, then the
`validate_relationships` model validator (which pydantic only runs once the
fields validate).  The documented source/target triples are not checked at
runtime, matching the source. -/
def validateGraph (m : DynamicModel) (g : EventGraph) : Except String EventGraph :=
  if g.nodes.all (nodeFieldsOk m) &&
      g.relationships.all (fun r => m.valid_relationship_types.contains r.type) then
    validate_relationships g
  else
    .error "value is not a valid enumeration member"

/-- A `langchain` `AIMessage` as far as `parse` inspects it: `content`, `id`
and `tool_calls` (the latter opaque to every claim). -/
structure AIMessage where
  content : String
  id : String
  tool_calls : List String
deriving Repr, DecidableEq

/-- One entry of a pydantic `ValidationError.errors()` as projected by
`parse`: `loc`, `msg` and `input`. -/
structure PErr where
  loc : List String
  msg : String
  input : String
deriving Repr, DecidableEq

/-- The dict returned by one invocation of the structured-output chain
(`with_structured_output(..., include_raw=True)`).  `raw = none` models the
key being absent (subscripting raises `KeyError`); `raw = some none` models
the key holding Python `None`. -/
structure RawSchema where
  parsed : Option EventGraph
  raw : Option (Option AIMessage)
  parsing_error : Option (List PErr)
deriving Repr, DecidableEq

/-- A message of the correction transcript fed back through the
`{corrections}` placeholder. -/
inductive Message where
  | ai (content : String) (id : String) (tool_calls : List String)
  | human (text : String)
deriving Repr, DecidableEq

/-- The fixed retry instruction of `parse`. -/
def formatRetryMsg : String :=
  "Your answer does not respect the expected format. Please try again."

/-- Rendering of one projected validation error into the correction text. -/
def formatErrItem (e : PErr) : String :=
  "location: " ++ String.intercalate "." e.loc ++ ", message: " ++ e.msg ++
    ", invalid_input: " ++ e.input

/-- The `Fix these errors...` suffix appended when `parsing_error` is set. -/
def errorSuffix (errs : List PErr) : String :=
  " Fix these errors, without modifying anything else: " ++
    String.intercalate "; " (errs.map formatErrItem)

/-- The terminal failure message of `parse`. -/
def noValidMsg : String :=
  "No valid output was produced within the self-reflection steps."

/-- One pass through the body of the self-reflection loop of `Parser.parse`,
given the chain's dict `r` and the current correction transcript `c`:

* `parsed` truthy — return the parsed graph (`.inr`);
* `parsed` falsy, `raw` key absent — `KeyError` caught, `continue` with the
  transcript unchanged (`.inl c`);
* `parsed` falsy, `raw` key present but `None` — `AIMessage(llm_answer.content, ...)`
  dereferences `None`, raising an uncaught `AttributeError` (`.error`);
* `parsed` falsy, `raw` a message — append the stripped assistant message and
  one human correction (with the rendered `parsing_error` details when
  present), then `continue`. -/
def attemptStep (r : RawSchema) (c : List Message) :
    Except String (List Message ⊕ EventGraph) :=
  match r.parsed with
  | some g => .ok (.inr g)
  | none =>
    match r.raw with
    | none => .ok (.inl c)
    | some none => .error "AttributeError: NoneType object has no attribute content"
    | some (some m) =>
      let c1 := c ++ [Message.ai m.content m.id m.tool_calls]
      let msg :=
        match r.parsing_error with
        | some errs => formatRetryMsg ++ errorSuffix errs
        | none => formatRetryMsg
      .ok (.inl (c1 ++ [Message.human msg]))

/-- `node.id = node_id; node.properties["uri"] = node_id` for one node, with
`node_id` a fresh identifier. -/
def reassignGNode (nid : String) (n : GNode) : GNode :=
  { n with id := nid, properties := dictInsert "uri" nid n.properties }

/-- The id-reassignment loop of `parse` over the deduplicated node dict,
consuming one fresh identifier per node in order. -/
def reassignAll (fresh : Nat → String) : Nat → List (String × GNode) → List (String × GNode)
  | _, [] => []
  | i, (k, n) :: rest => (k, reassignGNode (fresh i) n) :: reassignAll fresh (i + 1) rest

/-- `raw_schema["parsed"].graph()` followed by the id-reassignment loop of
`parse`.  In Python the relationships built by `graph()` alias the very node
objects of `nodes_dict`, so mutating a node's id and `uri` is visible through
every relationship endpoint; the embedding captures that by resolving the
relationships against the already-reassigned dict (keyed, as in the source,
by the original LLM-provided ids).  `none` models the `KeyError` raised by
`graph()` on a dangling reference. -/
def parseSuccessGraph (fresh : Nat → String) (g : EventGraph) : Option GraphDocument :=
  let d := reassignAll fresh 0 (nodesDict g.nodes)
  match resolveRels d g.relationships with
  | some rels => some { nodes := d.map Prod.snd, relationships := rels }
  | none => none

/-- Terminal outcome of the self-reflection loop. -/
inductive ParseOutcome where
  | success (gd : GraphDocument)
  | failure (e : String)
deriving Repr, DecidableEq

/-- The self-reflection loop of `Parser.parse`:
`for current_step in range(self_reflection_steps + 1)` with the current
transcript `c`, invoking the backend oracle at index `i` once per iteration.
Besides the outcome it returns, for each backend invocation in order, the
correction transcript that invocation was shown (the conversation history
minus the fixed prompt prelude). -/
def parseGo (resp : Nat → RawSchema) (fresh : Nat → String) :
    Nat → Nat → List Message → Except String ParseOutcome × List (List Message)
  | _, 0, _ => (.ok (.failure noValidMsg), [])
  | i, r + 1, c =>
    match attemptStep (resp i) c with
    | .error e => (.error e, [c])
    | .ok (.inr g) =>
      match parseSuccessGraph fresh g with
      | some gd => (.ok (.success gd), [c])
      | none => (.error "KeyError", [c])
    | .ok (.inl c2) =>
      ((parseGo resp fresh (i + 1) r c2).1, c :: (parseGo resp fresh (i + 1) r c2).2)

/-- `ParserReport` from `reports.py`.  `end_dt` is unset until `success` or
`failure` runs; `error` and `graph` start as `None`.  Timestamps are opaque
clock readings. -/
structure ParserReport where
  start_dt : Nat
  end_dt : Option Nat
  error : Option String
  graph : Option GraphDocument
deriving Repr, DecidableEq

/-- `ParserReport()` constructed at time `t`. -/
def ParserReport.new (t : Nat) : ParserReport :=
  { start_dt := t, end_dt := none, error := none, graph := none }

/-- `ParserReport.failure`: set the end time and the error, leave the graph
untouched. -/
def ParserReport.failure (r : ParserReport) (t : Nat) (e : String) : ParserReport :=
  { r with end_dt := some t, error := some e }

/-- `ParserReport.success`: set the end time and the graph, leave the error
untouched. -/
def ParserReport.success (r : ParserReport) (t : Nat) (gd : GraphDocument) : ParserReport :=
  { r with end_dt := some t, graph := some gd }

/-- `Parser.parse` from `parser.py`: construct the report at time `t0`, run
the self-reflection loop, and close the report (at time `t1`) with
`report.success` or `report.failure`; an uncaught exception from the loop
propagates.  The second component is the per-invocation transcript trace of
`parseGo`. -/
def Parser.parse (resp : Nat → RawSchema) (fresh : Nat → String)
    (self_reflection_steps : Nat) (t0 t1 : Nat) :
    Except String ParserReport × List (List Message) :=
  let report := ParserReport.new t0
  let p := parseGo resp fresh 0 (self_reflection_steps + 1) []
  match p.1 with
  | .error e => (.error e, p.2)
  | .ok (.success gd) => (.ok (report.success t1 gd), p.2)
  | .ok (.failure m) => (.ok (report.failure t1 m), p.2)

/-- The structured-output chain wrapper: the LLM emitted a tool call whose
arguments decode to the candidate `args`; the chain validates it against the
dynamic model and fills the result dict accordingly (`raw` always carries the
assistant message, and exactly one of `parsed` / `parsing_error` is set). -/
def chainRespond (m : DynamicModel) (msg : AIMessage) (args : EventGraph) : RawSchema :=
  match validateGraph m args with
  | .ok g => { parsed := some g, raw := some (some msg), parsing_error := none }
  | .error e => { parsed := none, raw := some (some msg), parsing_error := some [{ loc := [], msg := e, input := "" }] }


/-! ### Lemmas about the Python-dict embedding -/

theorem dictGet_dictInsert_self (k : String) (v : α) (d : List (String × α)) :
    dictGet (dictInsert k v d) k = some v := by
  induction d with
  | nil => simp [dictInsert, dictGet]
  | cons hd tl ih =>
    obtain ⟨k2, v2⟩ := hd
    by_cases h : k2 = k
    · simp [dictInsert, h, dictGet]
    · simp [dictInsert, h, dictGet, ih]

theorem dictGet_dictInsert_ne (k k2 : String) (v : α) (d : List (String × α))
    (h : k ≠ k2) : dictGet (dictInsert k v d) k2 = dictGet d k2 := by
  induction d with
  | nil => simp [dictInsert, dictGet, h]
  | cons hd tl ih =>
    obtain ⟨k3, v3⟩ := hd
    by_cases h3 : k3 = k
    · subst h3
      simp [dictInsert, dictGet, h, ih]
    · simp [dictInsert, h3, dictGet, ih]

theorem dictInsert_keys (k : String) (v : α) (d : List (String × α)) :
    (dictInsert k v d).map Prod.fst =
      if k ∈ d.map Prod.fst then d.map Prod.fst else d.map Prod.fst ++ [k] := by
  induction d with
  | nil => simp [dictInsert]
  | cons hd tl ih =>
    obtain ⟨k2, v2⟩ := hd
    by_cases h : k2 = k
    · subst h
      simp [dictInsert]
    · by_cases hm : k ∈ tl.map Prod.fst
      · simp [dictInsert, h, ih, hm, Ne.symm h]
      · simp [dictInsert, h, ih, hm, Ne.symm h]

theorem mem_dictInsert (k : String) (v : α) (d : List (String × α))
    (p : String × α) (hp : p ∈ dictInsert k v d) : p = (k, v) ∨ p ∈ d := by
  induction d with
  | nil => simpa [dictInsert] using hp
  | cons hd tl ih =>
    obtain ⟨k2, v2⟩ := hd
    by_cases h : k2 = k
    · subst h
      rw [dictInsert] at hp
      simp only [if_pos rfl] at hp
      rcases List.mem_cons.mp hp with h1 | h1
      · exact Or.inl h1
      · exact Or.inr (List.mem_cons_of_mem _ h1)
    · rw [dictInsert] at hp
      simp only [if_neg h] at hp
      rcases List.mem_cons.mp hp with h1 | h1
      · exact Or.inr (by rw [h1]; exact List.mem_cons_self _ _)
      · rcases ih h1 with h2 | h2
        · exact Or.inl h2
        · exact Or.inr (List.mem_cons_of_mem _ h2)

theorem foldl_nodesDict_keys_nodup (ns : List ENode) (d : List (String × GNode))
    (hd : (d.map Prod.fst).Nodup) :
    ((ns.foldl (fun d n => dictInsert n.id (toGNode n) d) d).map Prod.fst).Nodup := by
  induction ns generalizing d with
  | nil => simpa using hd
  | cons n tl ih =>
    rw [List.foldl_cons]
    apply ih
    rw [dictInsert_keys]
    by_cases hm : n.id ∈ d.map Prod.fst
    · rwa [if_pos hm]
    · rw [if_neg hm]
      exact List.Nodup.append hd (List.nodup_singleton _) (List.disjoint_singleton.mpr hm)

theorem nodesDict_keys_nodup (ns : List ENode) :
    ((nodesDict ns).map Prod.fst).Nodup :=
  foldl_nodesDict_keys_nodup ns [] (by simp)

/-- The node of `ns` that a Python dict comprehension keyed by id would leave
bound to `nid`: the last node of the list carrying that id. -/
def lastNodeWith (ns : List ENode) (nid : String) : Option ENode :=
  match ns with
  | [] => none
  | n :: rest =>
    match lastNodeWith rest nid with
    | some m => some m
    | none => if n.id = nid then some n else none

theorem dictGet_foldl_nodes (ns : List ENode) (d : List (String × GNode)) (nid : String) :
    dictGet (ns.foldl (fun d n => dictInsert n.id (toGNode n) d) d) nid =
      match lastNodeWith ns nid with
      | some m => some (toGNode m)
      | none => dictGet d nid := by
  induction ns generalizing d with
  | nil => simp [lastNodeWith]
  | cons n tl ih =>
    rw [List.foldl_cons, ih]
    cases h : lastNodeWith tl nid with
    | some m => simp [lastNodeWith, h]
    | none =>
      simp only [lastNodeWith, h]
      by_cases hn : n.id = nid
      · subst hn
        simp [dictGet_dictInsert_self]
      · simp [hn, dictGet_dictInsert_ne _ _ _ _ hn]

theorem dictGet_nodesDict (ns : List ENode) (nid : String) :
    dictGet (nodesDict ns) nid = (lastNodeWith ns nid).map toGNode := by
  rw [nodesDict, dictGet_foldl_nodes]
  cases lastNodeWith ns nid <;> simp [dictGet]

theorem foldl_nodesDict_val_id (ns : List ENode) (d : List (String × GNode))
    (hd : ∀ p ∈ d, p.2.id = p.1) :
    ∀ p ∈ ns.foldl (fun d n => dictInsert n.id (toGNode n) d) d, p.2.id = p.1 := by
  induction ns generalizing d with
  | nil => simpa using hd
  | cons n tl ih =>
    rw [List.foldl_cons]
    apply ih
    intro p hp
    rcases mem_dictInsert _ _ _ _ hp with h | h
    · simp [h, toGNode]
    · exact hd p h

theorem nodesDict_val_id (ns : List ENode) :
    ∀ p ∈ nodesDict ns, p.2.id = p.1 :=
  foldl_nodesDict_val_id ns [] (by simp)

/-- Claim C9: when the LLM output contains several nodes carrying the same
id, `EventGraph.graph` deduplicates them into exactly one node per distinct
id with last-write-wins semantics — the deduplicated lookup has no duplicate
keys, each key is bound to the `Node` built from the last listed node with
that id, each stored node still carries its key as its id, the output node
list is exactly the lookup's values, and every relationship is resolved
against this deduplicated lookup. -/
theorem graph_dedup_last_write (g : EventGraph) (gd : GraphDocument)
    (h : g.graph = some gd) :
    ((nodesDict g.nodes).map Prod.fst).Nodup ∧
    (∀ nid, dictGet (nodesDict g.nodes) nid = (lastNodeWith g.nodes nid).map toGNode) ∧
    (∀ p ∈ nodesDict g.nodes, p.2.id = p.1) ∧
    gd.nodes = (nodesDict g.nodes).map Prod.snd ∧
    resolveRels (nodesDict g.nodes) g.relationships = some gd.relationships := by
  refine ⟨nodesDict_keys_nodup g.nodes, fun nid => dictGet_nodesDict g.nodes nid,
    nodesDict_val_id g.nodes, ?_⟩
  rw [EventGraph.graph] at h
  cases hr : resolveRels (nodesDict g.nodes) g.relationships with
  | none => rw [hr] at h; exact absurd h (by simp)
  | some rels =>
    rw [hr] at h
    simp only [Option.some.injEq] at h
    rw [← h]
    exact ⟨rfl, rfl⟩

/-- LLM output listing the id "A" twice, used to exhibit last-write-wins
deduplication. -/
def dupOut : EventGraph :=
  { nodes := [{ id := "A", type := "T1", properties := some [{ type := "p", value := "1" }] },
              { id := "A", type := "T2", properties := some [{ type := "q", value := "2" }] }],
    relationships := [{ source_id := "A", target_id := "A", type := "r" }] }

/-- The `GraphDocument` that `EventGraph.graph` assembles from `dupOut`. -/
def dupOutDoc : GraphDocument :=
  { nodes := [{ id := "A", type := "T2", properties := [("q", "2")] }],
    relationships := [{ source := { id := "A", type := "T2", properties := [("q", "2")] },
                        target := { id := "A", type := "T2", properties := [("q", "2")] },
                        type := "r" }] }

/-- Witness for C9, at an output listing the id "A" twice: the second listing
(type "T2") wins, and the relationship endpoints resolve to it. -/
theorem graph_dedup_last_write_witness :
    ((nodesDict dupOut.nodes).map Prod.fst).Nodup ∧
    (∀ nid, dictGet (nodesDict dupOut.nodes) nid = (lastNodeWith dupOut.nodes nid).map toGNode) ∧
    (∀ p ∈ nodesDict dupOut.nodes, p.2.id = p.1) ∧
    dupOutDoc.nodes = (nodesDict dupOut.nodes).map Prod.snd ∧
    resolveRels (nodesDict dupOut.nodes) dupOut.relationships = some dupOutDoc.relationships :=
  graph_dedup_last_write dupOut dupOutDoc rfl


/-! ### Lemmas about the self-reflection loop -/

theorem parseGo_succ_error (resp : Nat → RawSchema) (fresh : Nat → String)
    (i r : Nat) (c : List Message) (e : String)
    (h : attemptStep (resp i) c = .error e) :
    parseGo resp fresh i (r + 1) c = (.error e, [c]) := by
  simp [parseGo, h]

theorem parseGo_succ_inr_some (resp : Nat → RawSchema) (fresh : Nat → String)
    (i r : Nat) (c : List Message) (g : EventGraph) (gd : GraphDocument)
    (h : attemptStep (resp i) c = .ok (.inr g))
    (hg : parseSuccessGraph fresh g = some gd) :
    parseGo resp fresh i (r + 1) c = (.ok (.success gd), [c]) := by
  simp [parseGo, h, hg]

theorem parseGo_succ_inr_none (resp : Nat → RawSchema) (fresh : Nat → String)
    (i r : Nat) (c : List Message) (g : EventGraph)
    (h : attemptStep (resp i) c = .ok (.inr g))
    (hg : parseSuccessGraph fresh g = none) :
    parseGo resp fresh i (r + 1) c = (.error "KeyError", [c]) := by
  simp [parseGo, h, hg]

theorem parseGo_succ_inl (resp : Nat → RawSchema) (fresh : Nat → String)
    (i r : Nat) (c c2 : List Message)
    (h : attemptStep (resp i) c = .ok (.inl c2)) :
    parseGo resp fresh i (r + 1) c =
      ((parseGo resp fresh (i + 1) r c2).1, c :: (parseGo resp fresh (i + 1) r c2).2) := by
  simp [parseGo, h]

theorem parseGo_len_le (resp : Nat → RawSchema) (fresh : Nat → String) :
    ∀ (r i : Nat) (c : List Message), (parseGo resp fresh i r c).2.length ≤ r := by
  intro r
  induction r with
  | zero => intro i c; simp [parseGo]
  | succ r ih =>
    intro i c
    cases h : attemptStep (resp i) c with
    | error e => rw [parseGo_succ_error resp fresh i r c e h]; simp
    | ok s =>
      cases s with
      | inl c2 =>
        rw [parseGo_succ_inl resp fresh i r c c2 h]
        simpa using Nat.succ_le_succ (ih (i + 1) c2)
      | inr g =>
        cases hg : parseSuccessGraph fresh g with
        | none => rw [parseGo_succ_inr_none resp fresh i r c g h hg]; simp
        | some gd => rw [parseGo_succ_inr_some resp fresh i r c g gd h hg]; simp

theorem parseGo_head (resp : Nat → RawSchema) (fresh : Nat → String)
    (i r : Nat) (c : List Message) :
    (parseGo resp fresh i (r + 1) c).2.head? = some c := by
  cases h : attemptStep (resp i) c with
  | error e => rw [parseGo_succ_error resp fresh i r c e h]; rfl
  | ok s =>
    cases s with
    | inl c2 => rw [parseGo_succ_inl resp fresh i r c c2 h]; rfl
    | inr g =>
      cases hg : parseSuccessGraph fresh g with
      | none => rw [parseGo_succ_inr_none resp fresh i r c g h hg]; rfl
      | some gd => rw [parseGo_succ_inr_some resp fresh i r c g gd h hg]; rfl

theorem attemptStep_inl (r : RawSchema) (c c2 : List Message)
    (h : attemptStep r c = .ok (.inl c2)) :
    c2 = c ∨ ∃ a b, c2 = c ++ [a, b] := by
  unfold attemptStep at h
  cases hp : r.parsed with
  | some g => rw [hp] at h; simp at h
  | none =>
    rw [hp] at h
    cases hr : r.raw with
    | none =>
      rw [hr] at h
      simp only [Except.ok.injEq, Sum.inl.injEq] at h
      exact Or.inl h.symm
    | some o =>
      cases o with
      | none => rw [hr] at h; simp at h
      | some m =>
        rw [hr] at h
        simp only [Except.ok.injEq, Sum.inl.injEq] at h
        refine Or.inr ⟨Message.ai m.content m.id m.tool_calls,
          Message.human (match r.parsing_error with
            | some errs => formatRetryMsg ++ errorSuffix errs
            | none => formatRetryMsg), ?_⟩
        rw [← h, List.append_assoc]
        rfl

/-- The relation between the transcripts of two consecutive backend
invocations: the earlier is a prefix of the later, and the later adds either
nothing (no raw output) or exactly two messages (the stripped assistant
message and one human correction). -/
def corrStep (x y : List Message) : Prop :=
  (∃ t, x ++ t = y) ∧ (y.length = x.length ∨ y.length = x.length + 2)

theorem parseGo_chain (resp : Nat → RawSchema) (fresh : Nat → String) :
    ∀ (r i : Nat) (c : List Message),
      List.Chain' corrStep (parseGo resp fresh i r c).2 := by
  intro r
  induction r with
  | zero => intro i c; simp [parseGo]
  | succ r ih =>
    intro i c
    cases h : attemptStep (resp i) c with
    | error e =>
      rw [parseGo_succ_error resp fresh i r c e h]
      exact List.chain'_singleton c
    | ok s =>
      cases s with
      | inr g =>
        cases hg : parseSuccessGraph fresh g with
        | none =>
          rw [parseGo_succ_inr_none resp fresh i r c g h hg]
          exact List.chain'_singleton c
        | some gd =>
          rw [parseGo_succ_inr_some resp fresh i r c g gd h hg]
          exact List.chain'_singleton c
      | inl c2 =>
        rw [parseGo_succ_inl resp fresh i r c c2 h]
        refine List.Chain'.cons' (ih (i + 1) c2) ?_
        intro y hy
        cases r with
        | zero => simp [parseGo] at hy
        | succ r2 =>
          rw [parseGo_head] at hy
          simp only [Option.mem_def, Option.some.injEq] at hy
          subst hy
          rcases attemptStep_inl _ _ _ h with h1 | ⟨a, b, h2⟩
          · exact ⟨⟨[], by simp [h1]⟩, Or.inl (by rw [h1])⟩
          · exact ⟨⟨[a, b], h2.symm⟩, Or.inr (by simp [h2])⟩

theorem parseGo_no_raw (resp : Nat → RawSchema) (fresh : Nat → String)
    (h : ∀ i, (resp i).parsed = none ∧ (resp i).raw = none) :
    ∀ (r i : Nat) (c : List Message),
      parseGo resp fresh i r c = (.ok (.failure noValidMsg), List.replicate r c) := by
  intro r
  induction r with
  | zero => intro i c; simp [parseGo]
  | succ r ih =>
    intro i c
    have hstep : attemptStep (resp i) c = .ok (.inl c) := by
      unfold attemptStep
      rw [(h i).1, (h i).2]
    rw [parseGo_succ_inl resp fresh i r c c hstep, ih (i + 1) c, List.replicate_succ]

theorem parseGo_success (resp : Nat → RawSchema) (fresh : Nat → String) :
    ∀ (r i : Nat) (c : List Message) (gd : GraphDocument),
      (parseGo resp fresh i r c).1 = .ok (.success gd) →
      ∃ g, parseSuccessGraph fresh g = some gd := by
  intro r
  induction r with
  | zero => intro i c gd h; simp [parseGo] at h
  | succ r ih =>
    intro i c gd h
    cases hs : attemptStep (resp i) c with
    | error e => rw [parseGo_succ_error resp fresh i r c e hs] at h; simp at h
    | ok s =>
      cases s with
      | inl c2 =>
        rw [parseGo_succ_inl resp fresh i r c c2 hs] at h
        exact ih (i + 1) c2 gd h
      | inr g =>
        cases hg : parseSuccessGraph fresh g with
        | none => rw [parseGo_succ_inr_none resp fresh i r c g hs hg] at h; simp at h
        | some gd2 =>
          rw [parseGo_succ_inr_some resp fresh i r c g gd2 hs hg] at h
          simp only [Except.ok.injEq, ParseOutcome.success.injEq] at h
          exact ⟨g, by rw [hg, h]⟩

theorem Parser.parse_snd (resp : Nat → RawSchema) (fresh : Nat → String)
    (n t0 t1 : Nat) :
    (Parser.parse resp fresh n t0 t1).2 = (parseGo resp fresh 0 (n + 1) []).2 := by
  simp only [Parser.parse]
  cases h : (parseGo resp fresh 0 (n + 1) []).1 with
  | error e => simp
  | ok o => cases o <;> simp

/-- Claim C2: one `parse` call invokes the LLM backend at most
`self_reflection_steps + 1` times, and for `self_reflection_steps = 0`
exactly one invocation occurs regardless of the backend's behaviour.  The
trace component records the transcript shown to each invocation, so its
length is the number of backend invocations. -/
theorem parse_attempt_bound (resp : Nat → RawSchema) (fresh : Nat → String)
    (n t0 t1 : Nat) :
    (Parser.parse resp fresh n t0 t1).2.length ≤ n + 1 ∧
    (Parser.parse resp fresh 0 t0 t1).2.length = 1 := by
  constructor
  · rw [Parser.parse_snd]
    exact parseGo_len_le resp fresh (n + 1) 0 []
  · rw [Parser.parse_snd]
    cases h : attemptStep (resp 0) [] with
    | error e => rw [parseGo_succ_error resp fresh 0 0 [] e h]; rfl
    | ok s =>
      cases s with
      | inl c2 => rw [parseGo_succ_inl resp fresh 0 0 [] c2 h]; simp [parseGo]
      | inr g =>
        cases hg : parseSuccessGraph fresh g with
        | none => rw [parseGo_succ_inr_none resp fresh 0 0 [] g h hg]; rfl
        | some gd => rw [parseGo_succ_inr_some resp fresh 0 0 [] g gd h hg]; rfl

/-- Claim C7 (amended): within one `parse` call the correction transcript is
append-only — every invocation's transcript extends the previous invocation's
as a prefix — but a failed attempt appends exactly two messages (the stripped
assistant echo plus one human correction) when raw output is available, and
appends nothing at all when no raw output exists, rather than exactly one
correction with strictly growing history. -/
theorem parse_transcript_append_only (resp : Nat → RawSchema) (fresh : Nat → String)
    (n t0 t1 : Nat) :
    List.Chain' corrStep (Parser.parse resp fresh n t0 t1).2 := by
  rw [Parser.parse_snd]
  exact parseGo_chain resp fresh (n + 1) 0 []

/-- A backend whose structured-output dict never carries a parsed value nor
the raw key. -/
def respAbsent : Nat → RawSchema :=
  fun _ => { parsed := none, raw := none, parsing_error := none }

/-- The consecutive-transcript relation asserted by the original wording of
C7: each later history extends the earlier as a strict prefix, with exactly
one new correction appended. -/
def strictStep (x y : List Message) : Prop :=
  (∃ t, x ++ t = y) ∧ y.length = x.length + 1

/-- Counterexample to C7 as stated: with a backend that yields no raw output
and `self_reflection_steps = 1`, the two consecutive invocations see the very
same (empty) transcript, so the earlier history is not a strict prefix of the
later and no correction is appended after the failed first attempt. -/
theorem transcript_not_strict :
    (Parser.parse respAbsent (fun _ => "") 1 0 0).2 = [[], []] ∧
    ¬ List.Chain' strictStep (Parser.parse respAbsent (fun _ => "") 1 0 0).2 := by
  refine ⟨rfl, ?_⟩
  intro h
  rw [show (Parser.parse respAbsent (fun _ => "") 1 0 0).2 = [[], []] from rfl] at h
  rcases List.chain'_cons.mp h with ⟨⟨_, hlen⟩, _⟩
  simp [strictStep] at hlen

/-- Claim C4 (amended): for a backend whose result dict carries neither a
parsed value nor the raw key (so the `KeyError` branch runs), every attempt
is consumed without adding correction context and `parse` returns a `Failure`
report instead of raising.  (When the raw key is present but holds `None`,
`parse` instead raises — see the counterexample.) -/
theorem parse_no_raw_returns_failure (resp : Nat → RawSchema) (fresh : Nat → String)
    (n t0 t1 : Nat)
    (h : ∀ i, (resp i).parsed = none ∧ (resp i).raw = none) :
    (Parser.parse resp fresh n t0 t1).1 =
      .ok { start_dt := t0, end_dt := some t1, error := some noValidMsg, graph := none } ∧
    (Parser.parse resp fresh n t0 t1).2 = List.replicate (n + 1) [] := by
  have hg := parseGo_no_raw resp fresh h (n + 1) 0 []
  constructor
  · simp only [Parser.parse, hg]
    rfl
  · rw [Parser.parse_snd, hg]

/-- Witness for C4 (amended), at the concrete always-no-raw backend with one
self-reflection step. -/
theorem parse_no_raw_returns_failure_witness :
    (Parser.parse respAbsent (fun _ => "") 1 0 0).1 =
      .ok { start_dt := 0, end_dt := some 0, error := some noValidMsg, graph := none } ∧
    (Parser.parse respAbsent (fun _ => "") 1 0 0).2 = List.replicate 2 [] :=
  parse_no_raw_returns_failure respAbsent (fun _ => "") 1 0 0 (fun _ => ⟨rfl, rfl⟩)

/-- Counterexample to C4 as stated: when the result dict has the raw key
present but bound to `None` (one of the two no-raw shapes the claim covers),
`AIMessage(llm_answer.content, ...)` dereferences `None` and `parse` raises
an uncaught `AttributeError` instead of returning a `Failure` report. -/
theorem parse_raw_none_raises :
    (Parser.parse (fun _ => { parsed := none, raw := some none, parsing_error := none })
        (fun _ => "") 0 0 0).1 =
      .error "AttributeError: NoneType object has no attribute content" := rfl

/-- Claim C10: every report returned (rather than raised) by `parse` was
closed by exactly one of `success`/`failure`: its end timestamp is set,
exactly one of the graph/error fields is populated, and the start timestamp
recorded at construction is never later than the end timestamp (the clock
hypothesis `t0 ≤ t1` says the two `datetime.now` readings are monotone). -/
theorem parse_report_closed (resp : Nat → RawSchema) (fresh : Nat → String)
    (n t0 t1 : Nat) (rep : ParserReport)
    (hc : t0 ≤ t1)
    (h : (Parser.parse resp fresh n t0 t1).1 = .ok rep) :
    rep.start_dt = t0 ∧ rep.end_dt = some t1 ∧ rep.start_dt ≤ t1 ∧
    ((rep.graph.isSome ∧ rep.error = none) ∨ (rep.error.isSome ∧ rep.graph = none)) := by
  simp only [Parser.parse] at h
  cases h1 : (parseGo resp fresh 0 (n + 1) []).1 with
  | error e => rw [h1] at h; simp at h
  | ok o =>
    cases o with
    | success gd =>
      rw [h1] at h
      simp only [Except.ok.injEq] at h
      rw [← h]
      exact ⟨rfl, rfl, hc, Or.inl ⟨rfl, rfl⟩⟩
    | failure m =>
      rw [h1] at h
      simp only [Except.ok.injEq] at h
      rw [← h]
      exact ⟨rfl, rfl, hc, Or.inr ⟨rfl, rfl⟩⟩

/-- Witness for C10, at the always-no-raw backend (which yields a `Failure`
report). -/
theorem parse_report_closed_witness :
    (ParserReport.mk 0 (some 0) (some noValidMsg) none).start_dt = 0 ∧
    (ParserReport.mk 0 (some 0) (some noValidMsg) none).end_dt = some 0 ∧
    (ParserReport.mk 0 (some 0) (some noValidMsg) none).start_dt ≤ 0 ∧
    (((ParserReport.mk 0 (some 0) (some noValidMsg) none).graph.isSome ∧
        (ParserReport.mk 0 (some 0) (some noValidMsg) none).error = none) ∨
      ((ParserReport.mk 0 (some 0) (some noValidMsg) none).error.isSome ∧
        (ParserReport.mk 0 (some 0) (some noValidMsg) none).graph = none)) :=
  parse_report_closed respAbsent (fun _ => "") 0 0 0
    (ParserReport.mk 0 (some 0) (some noValidMsg) none) (Nat.le_refl 0) rfl

/-! ### Lemmas about id reassignment -/

theorem reassignAll_uri (fresh : Nat → String) :
    ∀ (d : List (String × GNode)) (j : Nat) (p : String × GNode),
      p ∈ reassignAll fresh j d → dictGet p.2.properties "uri" = some p.2.id := by
  intro d
  induction d with
  | nil => intro j p hp; simp [reassignAll] at hp
  | cons hd tl ih =>
    intro j p hp
    obtain ⟨k, n⟩ := hd
    simp only [reassignAll] at hp
    rcases List.mem_cons.mp hp with h | h
    · rw [h]
      simp [reassignGNode, dictGet_dictInsert_self]
    · exact ih (j + 1) p h

theorem reassignAll_mem_ids (fresh : Nat → String) :
    ∀ (d : List (String × GNode)) (j : Nat) (x : String),
      x ∈ (reassignAll fresh j d).map (fun p => p.2.id) → ∃ k, j ≤ k ∧ x = fresh k := by
  intro d
  induction d with
  | nil => intro j x hx; simp [reassignAll] at hx
  | cons hd tl ih =>
    intro j x hx
    obtain ⟨k, n⟩ := hd
    simp only [reassignAll, List.map_cons, List.mem_cons] at hx
    rcases hx with h | h
    · exact ⟨j, Nat.le_refl j, by rw [h]; rfl⟩
    · obtain ⟨k2, hk2, hx2⟩ := ih (j + 1) x h
      exact ⟨k2, Nat.le_of_succ_le hk2, hx2⟩

theorem reassignAll_ids_nodup (fresh : Nat → String)
    (hf : ∀ i j : Nat, fresh i = fresh j → i = j) :
    ∀ (d : List (String × GNode)) (j : Nat),
      ((reassignAll fresh j d).map (fun p => p.2.id)).Nodup := by
  intro d
  induction d with
  | nil => intro j; simp [reassignAll]
  | cons hd tl ih =>
    intro j
    obtain ⟨k, n⟩ := hd
    simp only [reassignAll, List.map_cons]
    rw [List.nodup_cons]
    refine ⟨?_, ih (j + 1)⟩
    intro hmem
    obtain ⟨k2, hk2, hx⟩ := reassignAll_mem_ids fresh tl (j + 1) _ hmem
    have : j = k2 := hf j k2 hx
    omega

theorem parseSuccessGraph_ids (fresh : Nat → String)
    (hf : ∀ i j : Nat, fresh i = fresh j → i = j)
    (g : EventGraph) (gd : GraphDocument)
    (h : parseSuccessGraph fresh g = some gd) :
    (∀ nd ∈ gd.nodes, dictGet nd.properties "uri" = some nd.id) ∧
    (gd.nodes.map GNode.id).Nodup := by
  rw [parseSuccessGraph] at h
  cases hr : resolveRels (reassignAll fresh 0 (nodesDict g.nodes)) g.relationships with
  | none => rw [hr] at h; simp at h
  | some rels =>
    rw [hr] at h
    simp only [Option.some.injEq] at h
    rw [← h]
    constructor
    · intro nd hnd
      simp only [List.mem_map] at hnd
      obtain ⟨p, hp, hpe⟩ := hnd
      rw [← hpe]
      exact reassignAll_uri fresh _ 0 p hp
    · have he : ((reassignAll fresh 0 (nodesDict g.nodes)).map Prod.snd).map GNode.id =
          (reassignAll fresh 0 (nodesDict g.nodes)).map (fun p => p.2.id) := by
        rw [List.map_map]
        rfl
      simp only [he]
      exact reassignAll_ids_nodup fresh hf _ 0

/-- Claim C8: every graph attached to a `Success` report has each node's
`uri` property equal to that node's own final identifier, and, under the
hypothesis that fresh identifier generation never repeats a value, the final
identifiers are pairwise distinct within the graph. -/
theorem parse_success_graph_wellformed (resp : Nat → RawSchema) (fresh : Nat → String)
    (n t0 t1 : Nat) (rep : ParserReport) (gd : GraphDocument)
    (hf : ∀ i j : Nat, fresh i = fresh j → i = j)
    (hrep : (Parser.parse resp fresh n t0 t1).1 = .ok rep)
    (hgd : rep.graph = some gd) :
    (∀ nd ∈ gd.nodes, dictGet nd.properties "uri" = some nd.id) ∧
    (gd.nodes.map GNode.id).Nodup := by
  simp only [Parser.parse] at hrep
  cases h1 : (parseGo resp fresh 0 (n + 1) []).1 with
  | error e => rw [h1] at hrep; simp at hrep
  | ok o =>
    cases o with
    | failure m =>
      rw [h1] at hrep
      simp only [Except.ok.injEq] at hrep
      rw [← hrep] at hgd
      simp [ParserReport.new, ParserReport.failure] at hgd
    | success gd2 =>
      rw [h1] at hrep
      simp only [Except.ok.injEq] at hrep
      rw [← hrep] at hgd
      simp only [ParserReport.new, ParserReport.success, Option.some.injEq] at hgd
      obtain ⟨g, hpg⟩ := parseGo_success resp fresh (n + 1) 0 [] gd2 h1
      rw [← hgd]
      exact parseSuccessGraph_ids fresh hf g gd2 hpg

/-- A backend that immediately returns a parsed single-node graph with a
self-referencing relationship. -/
def respOneNode : Nat → RawSchema :=
  fun _ =>
    { parsed := some { nodes := [{ id := "A", type := "Event", properties := none }],
                       relationships := [{ source_id := "A", target_id := "A", type := "rel" }] }
      raw := some (some { content := "", id := "r0", tool_calls := [] })
      parsing_error := none }

/-- An injective fresh-identifier oracle used by the C8 witness. -/
def freshRep : Nat → String :=
  fun k => String.mk (List.replicate k 'a')

theorem freshRep_inj : ∀ i j : Nat, freshRep i = freshRep j → i = j := by
  intro i j h
  have h2 : List.replicate i 'a' = List.replicate j 'a' := congrArg String.data h
  have h3 := congrArg List.length h2
  simpa using h3

/-- The graph that `parse` attaches to the `Success` report produced from
`respOneNode` under `freshRep` (so `freshRep 0 = ""`). -/
def oneNodeDoc : GraphDocument :=
  { nodes := [{ id := "", type := "Event", properties := [("uri", "")] }],
    relationships := [{ source := { id := "", type := "Event", properties := [("uri", "")] },
                        target := { id := "", type := "Event", properties := [("uri", "")] },
                        type := "rel" }] }

/-- Witness for C8 at the concrete one-node backend. -/
theorem parse_success_graph_wellformed_witness :
    (∀ nd ∈ oneNodeDoc.nodes, dictGet nd.properties "uri" = some nd.id) ∧
    (oneNodeDoc.nodes.map GNode.id).Nodup :=
  parse_success_graph_wellformed respOneNode freshRep 0 0 0
    (ParserReport.mk 0 (some 0) none (some oneNodeDoc)) oneNodeDoc
    freshRep_inj rfl rfl

/-! ### Referential-integrity checking and the validation schema -/

/-- Claim C1 (code behaviour at the failing input): because the Python set
expression groups as `sources ∪ (targets \ node_ids)`, `validate_relationships`
raises `ValueError` for every output containing at least one relationship —
including outputs whose relationships reference only nodes present in their
own node list — so assembly with referential-integrity checking never
succeeds for a non-empty relationship list, contradicting the claimed
if-and-only-if. -/
theorem validate_relationships_nonempty_always_error (g : EventGraph)
    (h : g.relationships ≠ []) :
    ∃ e, validate_relationships g = .error e := by
  have hm : missingNodeIds g ≠ [] := by
    obtain ⟨r, rs, hr⟩ := List.exists_cons_of_ne_nil h
    intro hempty
    have hmem : r.source_id ∈ missingNodeIds g := by
      rw [missingNodeIds]
      rw [List.mem_dedup]
      apply List.mem_append_left
      rw [hr]
      exact List.mem_map_of_mem _ (List.mem_cons_self r rs)
    rw [hempty] at hmem
    simp at hmem
  rw [validate_relationships, if_neg hm]
  exact ⟨_, rfl⟩

/-- The ontology of the spec's concrete scenario: node types `User`,
`Address`, `Event` (no declared properties) and the relationship
`hasUser : Event → User`. -/
def ontUAE : GraphDocument :=
  { nodes := [{ id := "u0", type := "User", properties := [] },
              { id := "a0", type := "Address", properties := [] },
              { id := "e0", type := "Event", properties := [] }],
    relationships := [{ source := { id := "e0", type := "Event", properties := [] },
                        target := { id := "u0", type := "User", properties := [] },
                        type := "hasUser" }] }

/-- An LLM output whose single `hasUser` relationship connects two nodes both
present in its own node list. -/
def gResolved : EventGraph :=
  { nodes := [{ id := "A", type := "Event", properties := none },
              { id := "B", type := "User", properties := none }],
    relationships := [{ source_id := "A", target_id := "B", type := "hasUser" }] }

/-- An LLM output whose relationship references a node id `C` missing from
its own node list. -/
def gDangling : EventGraph :=
  { nodes := [{ id := "A", type := "Event", properties := none },
              { id := "B", type := "User", properties := none }],
    relationships := [{ source_id := "A", target_id := "C", type := "hasUser" }] }

/-- Witness for C1: at the two-node output whose relationship endpoints are
both present, validation still fails. -/
theorem validate_relationships_nonempty_always_error_witness :
    ∃ e, validate_relationships gResolved = .error e :=
  validate_relationships_nonempty_always_error gResolved (by decide)

/-- The backend of the spec's retry scenario: first response carries the
dangling-reference output, the second the fully resolved one; both pass
through the structured-output chain's validation. -/
def respScenario : Nat → RawSchema :=
  fun i =>
    if i = 0 then chainRespond (build_dynamic_model ontUAE) { content := "", id := "r0", tool_calls := [] } gDangling
    else chainRespond (build_dynamic_model ontUAE) { content := "", id := "r1", tool_calls := [] } gResolved

/-- Claim C5 (code behaviour at the failing input): with
`self_reflection_steps = 1`, a dangling first response followed by a fully
valid second response does make exactly 2 backend invocations — the dangling
reference is indeed a correctable, attempt-local failure — but `parse`
returns a `Failure` report, not `Success`, because the same referential
integrity slip also rejects the fully resolved second response. -/
theorem parse_retry_scenario_two_calls_failure :
    (Parser.parse respScenario (fun _ => "") 1 0 0).2.length = 2 ∧
    (Parser.parse respScenario (fun _ => "") 1 0 0).1 =
      .ok { start_dt := 0, end_dt := some 0, error := some noValidMsg, graph := none } :=
  ⟨rfl, rfl⟩

/-- A two-type ontology: type `T1` declares property `a`, type `T2` declares
property `b`. -/
def ontTwoTypes : GraphDocument :=
  { nodes := [{ id := "n1", type := "T1", properties := [("a", "")] },
              { id := "n2", type := "T2", properties := [("b", "")] }],
    relationships := [] }

/-- A `T1`-typed node carrying the property `b` that only `T2` declares. -/
def crossTypeOut : EventGraph :=
  { nodes := [{ id := "x", type := "T1", properties := some [{ type := "b", value := "v" }] }],
    relationships := [] }

/-- Counterexample to C3 as stated: `b` is not in `T1`'s declared allowed
set, yet a `T1` node carrying property `b` (allowed only for `T2`) passes
validation, because the generated model checks property keys against the
single global union enum, never per node type. -/
theorem cross_type_property_accepted :
    dictGet (build_dynamic_model ontTwoTypes).valid_properties_per_node "T1" = some ["a", "uri"] ∧
    ¬ ("b" ∈ (["a", "uri"] : List String)) ∧
    validateGraph (build_dynamic_model ontTwoTypes) crossTypeOut = .ok crossTypeOut :=
  ⟨rfl, by decide, rfl⟩

/-- Claim C3 (amended): a node is accepted only when each of its property
keys belongs to the union over all node types of the declared allowed sets
(including `uri`); keys outside that union are rejected, but a key allowed
for some other node type is accepted for any type, since the generated model
never enforces the per-type sets. -/
theorem validateGraph_accepts_only_union_keys (m : DynamicModel) (g g2 : EventGraph)
    (h : validateGraph m g = .ok g2) :
    ∀ n ∈ g.nodes, ∀ ps, n.properties = some ps → ∀ p ∈ ps,
      m.valid_properties.contains p.type = true := by
  rw [validateGraph] at h
  by_cases hc : (g.nodes.all (nodeFieldsOk m) &&
      g.relationships.all (fun r => m.valid_relationship_types.contains r.type)) = true
  · intro n hn ps hps p hp
    rw [Bool.and_eq_true] at hc
    have h2 : nodeFieldsOk m n = true := List.all_eq_true.mp hc.1 n hn
    simp only [nodeFieldsOk, hps, Bool.and_eq_true] at h2
    exact List.all_eq_true.mp h2.2 p hp
  · rw [if_neg hc] at h
    simp at h

/-- Witness for C3 (amended), at the accepted cross-type node: its property
key `b` is indeed in the global union. -/
theorem validateGraph_accepts_only_union_keys_witness :
    (build_dynamic_model ontTwoTypes).valid_properties.contains "b" = true :=
  validateGraph_accepts_only_union_keys (build_dynamic_model ontTwoTypes)
    crossTypeOut crossTypeOut rfl
    { id := "x", type := "T1", properties := some [{ type := "b", value := "v" }] }
    (by simp [crossTypeOut])
    [{ type := "b", value := "v" }] rfl
    { type := "b", value := "v" } (by simp)

/-- The empty ontology snapshot. -/
def emptyOntology : GraphDocument :=
  { nodes := [], relationships := [] }

/-- Counterexample to C6 as stated: `build_dynamic_model` contains no
emptiness check, so on an ontology with no node types it returns a schema
object (with all-empty closed sets) rather than failing fast, and the
resulting model even validates the empty output. -/
theorem build_empty_ontology_builds :
    build_dynamic_model emptyOntology =
      { valid_node_types := [], valid_properties_per_node := [], valid_properties := [],
        valid_relationship_types := [], valid_triples := [] } ∧
    validateGraph (build_dynamic_model emptyOntology) { nodes := [], relationships := [] } =
      .ok { nodes := [], relationships := [] } :=
  ⟨rfl, rfl⟩

/-- Claim C6 (amended): building from an empty ontology does not raise a
configuration error; it returns a schema whose closed sets are all empty, so
extraction cannot produce any node — every output containing at least one
node fails enum validation against the empty node-type set. -/
theorem build_empty_ontology_rejects_any_node (g : EventGraph)
    (h : g.nodes ≠ []) :
    validateGraph (build_dynamic_model emptyOntology) g =
      .error "value is not a valid enumeration member" := by
  rw [validateGraph, if_neg]
  intro hc
  obtain ⟨n, ns, hn⟩ := List.exists_cons_of_ne_nil h
  rw [Bool.and_eq_true] at hc
  have h2 := List.all_eq_true.mp hc.1 n (by rw [hn]; exact List.mem_cons_self n ns)
  simp only [nodeFieldsOk, Bool.and_eq_true] at h2
  have h3 := h2.1
  have h4 : (build_dynamic_model emptyOntology).valid_node_types = [] := rfl
  rw [h4] at h3
  simp at h3

/-- Witness for C6 (amended), at a one-node output. -/
theorem build_empty_ontology_rejects_any_node_witness :
    validateGraph (build_dynamic_model emptyOntology)
        { nodes := [{ id := "a", type := "T", properties := none }], relationships := [] } =
      .error "value is not a valid enumeration member" :=
  build_empty_ontology_rejects_any_node _ (by decide)
